import Mathlib

/-
Verification of the extrace-freebsd process tracer against its
natural-language specification.

The development shallowly embeds the two program revisions found in the
repository (the newer revision with exit tracking, whose handlers are
`handle_exec` / `handle_exit`, and the older revision `extrace.c`, whose
exec handler is `handle_msg`).  Kernel interfaces (kvm_getprocs,
kvm_getargv, sysctl, gettimeofday, kevent) are modelled as explicit
oracle parameters: each call site receives its own fallible result, which
faithfully reflects that the kernel state can change between calls.
Formatted output is modelled as a list of abstract emission tokens, one
per fprintf/putc site, so that floating-point time formatting does not
enter the model.  Machine integers (pid_t, int) are modelled as `Int`;
none of the modelled arithmetic can overflow 32 bits on the inputs the
program manipulates.
-/

set_option autoImplicit false
set_option maxRecDepth 100000

namespace Extrace

/-! ### Constants from the source -/

/-- `#define PID_DB_SIZE 1024` -/
def PID_DB_SIZE : Nat := 1024

/-- `#define CMDLINE_DB_MAX 32` -/
def CMDLINE_DB_MAX : Nat := 32

/-- FreeBSD `SZOMB` process-state constant (sys/proc.h). -/
def SZOMB : Int := 5

/-- errno value `ESRCH` (no such process). -/
def ESRCH : Nat := 3

/-- FreeBSD `EVFILT_PROC` kevent filter constant. -/
def EVFILT_PROC : Int := -5

/-- FreeBSD `EV_ADD` kevent flag. -/
def EV_ADD : Nat := 1

/-- FreeBSD `NOTE_EXEC` kevent fflag. -/
def NOTE_EXEC : Nat := 0x20000000

/-- FreeBSD `NOTE_EXIT` kevent fflag. -/
def NOTE_EXIT : Nat := 0x80000000

/-- FreeBSD `NOTE_TRACK` kevent fflag. -/
def NOTE_TRACK : Nat := 1

/-! ### Data model -/

/-- The slice of `struct kinfo_proc` the program reads: parent pid
(`ki_ppid`), start time (`ki_start`, abstracted to a microsecond count)
and process state (`ki_stat`). -/
structure KProc where
  ppid : Int
  start : Int
  stat : Int
deriving Repr, DecidableEq

/-- One slot of the global `pid_db` array:
`struct { pid_t pid; int depth; struct timeval start; char cmdline[32]; }`. -/
structure PidEntry where
  pid : Int
  depth : Int
  start : Int
  cmdline : List Char
deriving Repr, DecidableEq

/-- A fresh slot: the global array is zero-initialized, so a free slot has
pid 0 (the free sentinel), depth 0 and an empty cmdline. -/
def emptyEntry : PidEntry := ⟨0, 0, 0, []⟩

/-- The ambient state `pid_depth` consults: the configured scope root
(global `parent`) and the `kvm_getprocs(KERN_PROC_PID, pid)` oracle
(`none` models a failed fetch). -/
structure SysState where
  parent : Int
  getproc : Int → Option KProc

/-- Read slot `i` of the ledger; out-of-range reads yield the zeroed
entry, matching the zero-initialized C array. -/
def dbGet (db : List PidEntry) (i : Nat) : PidEntry :=
  db.getD i emptyEntry

/-! ### Ancestry resolver -/

/-- The cache-consulting loop body of the newer revision's `pid_depth`:
`for (i = 0; i < PID_DB_SIZE - 1; i++) if (pid_db[i].pid == ppid) d = pid_db[i].depth;`
(last match wins; only the first `PID_DB_SIZE - 1` slots are examined). -/
def cacheScan (db : List PidEntry) (ppid : Int) : Option Int :=
  (db.take (PID_DB_SIZE - 1)).foldl
    (fun d e => if e.pid = ppid then some e.depth else d) none

/-- The final value of the loop index `i` after the cache-consulting loop.
The loop body contains no `break`, so the loop always runs to its bound and
`i` always ends at `PID_DB_SIZE - 1`, independent of the ledger contents. -/
def cacheScanFinal : Nat := PID_DB_SIZE - 1

/-- `pid_depth` of the newer revision.  The C recursion is unbounded; the
`fuel` parameter bounds it in the model, with exhaustion mapped to the
out-of-scope result `-1` (every theorem below supplies enough fuel for the
chains it talks about).  Note the order of operations taken from the
source: the process record is fetched before the `pid == parent` check. -/
def pid_depth (st : SysState) (db : List PidEntry) : Nat → Int → Int
  | 0, _ => -1
  | fuel + 1, pid =>
    match st.getproc pid with
    | none => -1
    | some kp =>
      if pid = st.parent then 0
      else if kp.ppid = st.parent then 1
      else if kp.ppid = 0 then -1
      else
        let dc := cacheScan db kp.ppid
        -- `if (i == PID_DB_SIZE - 1) d = pid_depth(ppid);` — since the
        -- loop has no break this test is always true, so the recursion
        -- unconditionally overwrites any value the scan stored in `d`.
        let d := if cacheScanFinal = PID_DB_SIZE - 1
                 then pid_depth st db fuel kp.ppid
                 else dc.getD 0
        if d = -1 then -1 else d + 1

/-- `pid_depth` of the older revision `extrace.c`: identical except that it
has no ledger scan at all and always recurses. -/
def pid_depth_old (st : SysState) : Nat → Int → Int
  | 0, _ => -1
  | fuel + 1, pid =>
    match st.getproc pid with
    | none => -1
    | some kp =>
      if pid = st.parent then 0
      else if kp.ppid = st.parent then 1
      else if kp.ppid = 0 then -1
      else
        let d := pid_depth_old st fuel kp.ppid
        if d = -1 then -1 else d + 1

/-- The ancestry resolver as the specification describes it (used only to
compare against the code): consult the ledger for a cached depth of the
parent; if present return `parent_depth + 1` without recursing; recurse
only on a cache miss.  (The spec additionally says the recursive result is
cached before returning; the comparison here needs only the value.) -/
def pid_depth_specCache (st : SysState) (db : List PidEntry) : Nat → Int → Int
  | 0, _ => -1
  | fuel + 1, pid =>
    match st.getproc pid with
    | none => -1
    | some kp =>
      if pid = st.parent then 0
      else if kp.ppid = st.parent then 1
      else if kp.ppid = 0 then -1
      else
        match cacheScan db kp.ppid with
        | some pd => pd + 1
        | none =>
          let d := pid_depth_specCache st db fuel kp.ppid
          if d = -1 then -1 else d + 1

/-- A fully resolvable ancestry chain, listed child first down to the
scope root: `chainOK st [p_k, …, p_1, root]` states that every hop of the
walk `pid_depth` performs on `p_k` succeeds and reaches the root after
`k` hops.  Each node's process record must be fetchable (the resolver
fetches before comparing), intermediate nodes differ from the root (the
chain reaches the root only at its end) and intermediate parents are
nonzero (a zero parent is the out-of-scope sentinel). -/
def chainOK (st : SysState) : List Int → Bool
  | [] => false
  | [p] => decide (p = st.parent) && (st.getproc p).isSome
  | p :: q :: rest =>
    (match st.getproc p with
     | some kp => decide (kp.ppid = q)
     | none => false)
    && decide (p ≠ st.parent)
    && (decide (q = st.parent) || decide (q ≠ 0))
    && chainOK st (q :: rest)

/-! ### Shell quoting (print_shquoted) -/

/-- The single-quote character. -/
def SQ : Char := Char.ofNat 39

/-- Codes of the punctuation characters in `print_shquoted`'s `strpbrk`
set: backquote, `^#*[]=|` backslash `?$`, both braces, parens, single and
double quote, `<>&;` and DEL. -/
def shSpecialCodes : List Nat :=
  [96, 94, 35, 42, 91, 93, 61, 124, 92, 63, 36, 123, 125,
   40, 41, 39, 34, 60, 62, 38, 59, 127]

/-- Membership in `print_shquoted`'s special set: all of `\001`–`\040`
(control characters and space) plus the punctuation list above. -/
def shSpecial (c : Char) : Bool :=
  (decide (1 ≤ c.toNat) && decide (c.toNat ≤ 32)) || shSpecialCodes.contains c.toNat

/-- The characters emitted for one input character inside the quoted form:
a single quote becomes the four characters of an escaped quote, a newline
becomes the seven characters of an ANSI-C quoted newline, everything else
is copied verbatim. -/
def shquoteChar (c : Char) : List Char :=
  if c = SQ then [SQ, Char.ofNat 92, SQ, SQ]
  else if c = Char.ofNat 10 then
    [SQ, Char.ofNat 36, SQ, Char.ofNat 92, Char.ofNat 110, SQ, SQ]
  else [c]

/-- The body of the quoted form (the loop of `print_shquoted`). -/
def shquoteBody (l : List Char) : List Char :=
  l.flatMap shquoteChar

/-- The exact character sequence `print_shquoted(s)` writes: the string
itself when it is nonempty and free of special characters, otherwise the
quoted form wrapped in single quotes. -/
def print_shquoted (l : List Char) : List Char :=
  if l ≠ [] ∧ l.all (fun c => !shSpecial c) then l
  else SQ :: shquoteBody l ++ [SQ]

/-- Parser modes for splitting one shell word: unquoted, single-quoted,
double-quoted, and ANSI-C (`$...`-single-quote) quoted. -/
inductive SMode where
  | unq
  | sq
  | dq
  | ansi
deriving Repr, DecidableEq

/-- Escape map of ANSI-C quoting: the value of backslash followed by the
given character, when defined. -/
def ansiEsc (c : Char) : Option Char :=
  if c = 'n' then some (Char.ofNat 10)
  else if c = 't' then some (Char.ofNat 9)
  else if c = 'r' then some (Char.ofNat 13)
  else if c = 'a' then some (Char.ofNat 7)
  else if c = 'b' then some (Char.ofNat 8)
  else if c = 'f' then some (Char.ofNat 12)
  else if c = 'v' then some (Char.ofNat 11)
  else if c = Char.ofNat 92 then some (Char.ofNat 92)
  else if c = SQ then some SQ
  else if c = Char.ofNat 34 then some (Char.ofNat 34)
  else none

/-- Unquoted whitespace, which would terminate the word. -/
def isWordBreak (c : Char) : Bool :=
  c = Char.ofNat 32 || c = Char.ofNat 9 || c = Char.ofNat 10

/-- Modelled from the spec: shell-word-splitting.  Parses the input as a
single shell word under POSIX quoting rules extended with ANSI-C `$`-quote
strings (which the quoter emits for newlines), returning the word's value,
or `none` when the input is not one single well-formed word (unterminated
quote, trailing backslash, or unquoted whitespace splitting the input).
Parameter expansion is out of scope: a bare `$` not followed by a single
quote is taken literally. -/
def splitWordAux : List Char → SMode → Option (List Char)
  | l, .unq =>
    match l with
    | [] => some []
    | c :: rest =>
      if c = SQ then splitWordAux rest .sq
      else if c = Char.ofNat 34 then splitWordAux rest .dq
      else if c = Char.ofNat 92 then
        match rest with
        | [] => none
        | d :: rest2 =>
          if d = Char.ofNat 10 then splitWordAux rest2 .unq
          else (splitWordAux rest2 .unq).map (d :: ·)
      else if c = Char.ofNat 36 then
        match rest with
        | [] => some [c]
        | q :: rest2 =>
          if q = SQ then splitWordAux rest2 .ansi
          else (splitWordAux (q :: rest2) .unq).map (c :: ·)
      else if isWordBreak c then none
      else (splitWordAux rest .unq).map (c :: ·)
  | l, .sq =>
    match l with
    | [] => none
    | c :: rest =>
      if c = SQ then splitWordAux rest .unq
      else (splitWordAux rest .sq).map (c :: ·)
  | l, .dq =>
    match l with
    | [] => none
    | c :: rest =>
      if c = Char.ofNat 34 then splitWordAux rest .unq
      else if c = Char.ofNat 92 then
        match rest with
        | [] => none
        | d :: rest2 =>
          if d = Char.ofNat 10 then splitWordAux rest2 .dq
          else if d = Char.ofNat 34 || d = Char.ofNat 92 ||
                  d = Char.ofNat 36 || d = Char.ofNat 96 then
            (splitWordAux rest2 .dq).map (d :: ·)
          else (splitWordAux rest2 .dq).map (fun t => c :: d :: t)
      else (splitWordAux rest .dq).map (c :: ·)
  | l, .ansi =>
    match l with
    | [] => none
    | c :: rest =>
      if c = SQ then splitWordAux rest .unq
      else if c = Char.ofNat 92 then
        match rest with
        | [] => none
        | d :: rest2 =>
          match ansiEsc d with
          | some e => (splitWordAux rest2 .ansi).map (e :: ·)
          | none => (splitWordAux rest2 .ansi).map (fun t => c :: d :: t)
      else (splitWordAux rest .ansi).map (c :: ·)

/-- Split a complete input as one shell word. -/
def splitShellWord (l : List Char) : Option (List Char) :=
  splitWordAux l .unq

/-! ### PID ledger -/

/-- The find-or-claim scan shared by `handle_exec` and `handle_exit`:
`for (i = 0; i < PID_DB_SIZE - 1; i++) if (pid_db[i].pid == 0 || pid_db[i].pid == pid) break;`
The auxiliary walks the slot list with the remaining iteration budget;
when no slot breaks the scan within the budget, the index falls off at the
bound. -/
def findIdxAux (pid : Int) : Nat → List PidEntry → Nat
  | 0, _ => 0
  | _ + 1, [] => 0
  | b + 1, e :: es =>
    if e.pid = 0 ∨ e.pid = pid then 0
    else findIdxAux pid b es + 1

/-- The value of `i` after the find-or-claim scan. -/
def findIdx (db : List PidEntry) (pid : Int) : Nat :=
  findIdxAux pid (PID_DB_SIZE - 1) db

/-- `WTERMSIG(status)`: low 7 bits. -/
def WTERMSIG (status : Int) : Int := status % 128

/-- `WIFSIGNALED(status)`: termination signal is neither 0 nor 0x7f. -/
def WIFSIGNALED (status : Int) : Bool :=
  decide (WTERMSIG status ≠ 127) && decide (WTERMSIG status ≠ 0)

/-- `WEXITSTATUS(status)`: bits 8–15. -/
def WEXITSTATUS (status : Int) : Int := (status / 256) % 256

/-- Abstract output tokens, one per fprintf/putc site of the handlers.
`timeSecs` carries the microsecond difference that `%.3fs` would format;
`execedLine` is the whole re-exec summary line. -/
inductive Out where
  | indent (d : Int)
  | newline
  | numDash (pid : Int)
  | execHeader (pid : Int) (plus : Bool)
  | shq (s : List Char)
  | qmark
  | cwdSep
  | sp
  | eqch
  | exitedStatus (n : Int)
  | exitedSignal (sig : Int)
  | timeSecs (usec : Int)
  | execedLine (pid : Int) (cmdline : List Char) (usec : Int)
  | dashEnv
deriving Repr, DecidableEq

/-- The option flags of one run (immutable after startup). -/
structure Config where
  flat : Bool
  full_path : Bool
  show_args : Bool
  show_cwd : Bool
  show_env : Bool
  show_exit : Bool
deriving Repr, DecidableEq

/-- `handle_exit(pid, status)` of the newer revision, as a pure function
from the ledger to the new ledger plus the emitted output tokens.
Faithful points: the lookup scan breaks on free slots as well as on a
match; in non-flat mode the found slot's depth gates emission (`d < 0`
returns silently); the found slot's pid is reset to 0 after printing. -/
def handle_exit (flat : Bool) (db : List PidEntry) (pid status now : Int) :
    List PidEntry × List Out :=
  let i := findIdx db pid
  let e := dbGet db i
  if !flat && decide (e.depth < 0) then (db, [])
  else
    let head : List Out := if !flat then [Out.indent e.depth] else []
    let tail : Out :=
      if WIFSIGNALED status then Out.exitedSignal (WTERMSIG status)
      else Out.exitedStatus (WEXITSTATUS status)
    (db.set i { e with pid := 0 },
     head ++ [Out.numDash pid, Out.shq e.cmdline, tail, Out.timeSecs (now - e.start)])

/-- The per-call kernel oracle of an exec handler invocation: the handler's
own `kvm_getprocs` result, the `kvm_getargv` result, the return codes and
buffer contents of the two sysctl calls (cwd and executable path), the
`kvm_getenvv` result and the `gettimeofday` reading.  Note the sysctl
calls are compared against 1 in the source (`if (sysctl(...) != 1)`),
although sysctl only ever returns 0 or -1. -/
structure ExecEnv where
  kp2 : Option KProc
  argv : Option (List (List Char))
  cwdRet : Int
  cwdPath : List Char
  pathRet : Int
  pathBuf : List Char
  envv : Option (List (List Char))
  now : Int

/-- `snprintf(pid_db[i].cmdline, CMDLINE_DB_MAX, "%s", s)`: stores at most
`CMDLINE_DB_MAX - 1` characters. -/
def truncCmd (s : List Char) : List Char := s.take (CMDLINE_DB_MAX - 1)

/-- Split an environment entry at its first `=` (`strchr(*pp, '=')`). -/
def splitEnvEq (s : List Char) : Option (List Char × List Char) :=
  match s.findIdx? (fun c => c = Char.ofNat 61) with
  | none => none
  | some i => some (s.take i, s.drop (i + 1))

/-- Output tokens for one environment entry. -/
def envEntryOut (s : List Char) : List Out :=
  match splitEnvEq s with
  | some kv => [Out.sp, Out.shq kv.1, Out.eqch, Out.shq kv.2]
  | none => [Out.sp, Out.shq s]

/-- Result of one `handle_exec` call: the new ledger, the tokens written
to the output stream, whether the overflow warning was printed to stderr,
and whether `warn()` was called for a failed metadata fetch. -/
structure ExecResult where
  db : List PidEntry
  out : List Out
  overflowWarned : Bool
  errWarned : Bool
deriving Repr, DecidableEq

/-- `handle_exec(pid)` of the newer revision.  Control flow from the
source: resolve depth (out of scope returns silently); fetch the process
record and argument vector (failure emits a bare newline plus a `warn()`
and returns); when `show_exit || !flat`, run the find-or-claim scan,
print the overflow warning whenever the scan falls off the end, then
either print the re-exec summary (slot already holds this pid and
`show_exit`) updating only the start time, or overwrite the slot's pid,
depth and start; finally print the exec line, storing the (possibly
truncated) label into the slot's cmdline.  When the scan did not run the
C source writes the cmdline through an uninitialized index, which is
undefined behaviour; the model performs no ledger write in that case. -/
def handle_exec (cfg : Config) (st : SysState) (env : ExecEnv) (fuel : Nat)
    (db : List PidEntry) (pid : Int) : ExecResult :=
  let d := pid_depth st db fuel pid
  if d < 0 then ⟨db, [], false, false⟩
  else
    match env.kp2 with
    | none => ⟨db, [Out.newline], false, true⟩
    | some kp =>
      match env.argv with
      | none => ⟨db, [Out.newline], false, true⟩
      | some argv =>
        let scan := cfg.show_exit || !cfg.flat
        let i := findIdx db pid
        let e := dbGet db i
        let overflow := scan && decide (i = PID_DB_SIZE - 1)
        let reexec := cfg.show_exit && decide (e.pid = pid)
        let step4 : List PidEntry × List Out :=
          if scan then
            if reexec then
              (db.set i { e with start := env.now },
               (if !cfg.flat then [Out.indent d] else []) ++
                 [Out.execedLine pid e.cmdline (env.now - e.start)])
            else
              (db.set i { e with pid := pid, depth := d, start := kp.start }, [])
          else (db, [])
        let db1 := step4.1
        let header : List Out :=
          (if !cfg.flat then [Out.indent d] else []) ++ [Out.execHeader pid cfg.show_exit]
        let cwdOut : List Out :=
          if cfg.show_cwd then
            (if env.cwdRet ≠ 1 then [Out.shq env.cwdPath] else [Out.qmark]) ++ [Out.cwdSep]
          else []
        -- `*pp` on an empty argument vector is undefined behaviour in the
        -- C source; the model reads the empty string there.
        let argv0 := argv.headD []
        let label :=
          if cfg.full_path then
            if env.pathRet ≠ 1 then env.pathBuf else argv0
          else argv0
        let a0Out : List Out := [Out.shq label]
        let db2 :=
          if scan then
            let e1 := dbGet db1 i
            db1.set i { e1 with cmdline := truncCmd label }
          else db1
        let argsOut : List Out :=
          if cfg.show_args then (argv.drop 1).flatMap (fun a => [Out.sp, Out.shq a])
          else []
        let envOut : List Out :=
          if cfg.show_env then
            match env.envv with
            | some es => es.flatMap envEntryOut
            | none => [Out.dashEnv]
          else []
        ⟨db2,
         step4.2 ++ header ++ cwdOut ++ a0Out ++ argsOut ++ envOut ++ [Out.newline],
         overflow, false⟩

/-- `handle_msg(pid)` of the older revision `extrace.c`.  Returns `none`
when the program terminates through `err(1, ...)`: there, a failed
`kvm_getprocs` or `kvm_getargv` is fatal.  Returns `some out` with the
emitted tokens otherwise (an out-of-scope depth returns silently with no
output). -/
def handle_msg (cfg : Config) (st : SysState) (env : ExecEnv) (fuel : Nat)
    (pid : Int) : Option (List Out) :=
  let d := pid_depth_old st fuel pid
  if !cfg.flat && decide (d < 0) then some []
  else
    let head : List Out :=
      (if !cfg.flat then [Out.indent d] else []) ++ [Out.execHeader pid false]
    let cwdOut : List Out :=
      if cfg.show_cwd then
        (if env.cwdRet ≠ 1 then [Out.shq env.cwdPath] else [Out.qmark]) ++ [Out.cwdSep]
      else []
    match env.kp2 with
    | none => none
    | some _ =>
      match env.argv with
      | none => none
      | some argv =>
        let argv0 := argv.headD []
        let a0Out : List Out :=
          [Out.shq (if cfg.full_path then
                      (if env.pathRet ≠ 1 then env.pathBuf else argv0)
                    else argv0)]
        let argsOut : List Out :=
          if cfg.show_args then (argv.drop 1).flatMap (fun a => [Out.sp, Out.shq a])
          else []
        let envOut : List Out :=
          if cfg.show_env then
            match env.envv with
            | some es => es.flatMap envEntryOut
            | none => [Out.dashEnv]
          else []
        some (head ++ cwdOut ++ a0Out ++ argsOut ++ envOut ++ [Out.newline])

/-! ### Bootstrap enumerator -/

/-- A kevent registration as the program fills it in. -/
structure KEvent where
  ident : Int
  filter : Int
  flags : Nat
  fflags : Nat
deriving Repr, DecidableEq

/-- The all-zero kevent a `calloc`ed slot keeps when the bootstrap loop
skips a process. -/
def zeroKev : KEvent := ⟨0, 0, 0, 0⟩

/-- The slice of `struct kinfo_proc` the bootstrap enumeration reads. -/
structure BProc where
  pid : Int
  ppid : Int
  stat : Int
deriving Repr, DecidableEq

/-- The kevent built for one enumerated process: processes with pid 0 or
parent pid 0 and zombies are skipped (their `calloc`ed slot stays zero),
everyone else gets an `EVFILT_PROC` subscription for `NOTE_EXEC`,
`NOTE_EXIT` when exit reporting is on, and `NOTE_TRACK`. -/
def bootKev (show_exit : Bool) (p : BProc) : KEvent :=
  if p.pid = 0 ∨ p.ppid = 0 then zeroKev
  else if p.stat = SZOMB then zeroKev
  else ⟨p.pid, EVFILT_PROC, EV_ADD,
        NOTE_EXEC ||| (if show_exit then NOTE_EXIT else 0) ||| NOTE_TRACK⟩

/-- The batch of kevents built from one enumeration snapshot. -/
def buildKevs (show_exit : Bool) (ps : List BProc) : List KEvent :=
  ps.map (bootKev show_exit)

/-- Outcome of the bootstrap enumeration: listing failed (`return -1`),
the retry budget of the model ran out (the C loop is unbounded), or a
batch was armed, with the flag recording whether the arming `kevent` call
failed and `warn()` ran. -/
inductive BootRes where
  | fatalList
  | fuelOut
  | armed (kevs : List KEvent) (warned : Bool)
deriving Repr, DecidableEq

/-- The `again:` bootstrap loop of system-wide mode.  `listProcs n` is the
`kvm_getprocs(KERN_PROC_ALL)` snapshot observed on attempt `n`; `armErr n
kevs` is the errno of the arming `kevent` call on attempt `n` (`none` for
success).  On `ESRCH` the entire enumeration is redone (`goto again`);
any other errno leaves the loop with a warning. -/
def bootstrap (show_exit : Bool) (listProcs : Nat → Option (List BProc))
    (armErr : Nat → List KEvent → Option Nat) : Nat → Nat → BootRes
  | 0, _ => .fuelOut
  | fuel + 1, attempt =>
    match listProcs attempt with
    | none => .fatalList
    | some ps =>
      let kevs := buildKevs show_exit ps
      match armErr attempt kevs with
      | none => .armed kevs false
      | some e =>
        if e = ESRCH then bootstrap show_exit listProcs armErr fuel (attempt + 1)
        else .armed kevs true

/-! ### Argument parsing and startup -/

/-- `isspace` characters skipped by `atoi`. -/
def isSpaceC (c : Char) : Bool :=
  c = Char.ofNat 32 || c = Char.ofNat 9 || c = Char.ofNat 10 ||
  c = Char.ofNat 11 || c = Char.ofNat 12 || c = Char.ofNat 13

/-- Leading-whitespace skipping of `atoi`. -/
def skipSpaces : List Char → List Char
  | [] => []
  | c :: cs => if isSpaceC c then skipSpaces cs else c :: cs

/-- The digit-consuming loop of `atoi`: accumulates the maximal leading
run of decimal digits onto `acc`. -/
def digitsVal : List Char → Int → Int
  | [], acc => acc
  | c :: cs, acc =>
    if c.isDigit then digitsVal cs (acc * 10 + ((c.toNat : Int) - 48))
    else acc

/-- C `atoi`: skip whitespace, accept one optional sign, convert the
maximal leading digit run; a string with no leading digits converts
to 0. -/
def atoi (l : List Char) : Int :=
  match skipSpaces l with
  | [] => 0
  | c :: cs =>
    if c = Char.ofNat 45 then -(digitsVal cs 0)
    else if c = Char.ofNat 43 then digitsVal cs 0
    else digitsVal (c :: cs) 0

/-- Whether a string begins (after `atoi`'s whitespace and sign handling)
with a decimal digit, so that `atoi` converts a nonempty digit run. -/
def beginsWithDecimal (l : List Char) : Bool :=
  match skipSpaces l with
  | [] => false
  | c :: cs =>
    if c = Char.ofNat 45 ∨ c = Char.ofNat 43 then
      match cs with
      | [] => false
      | d :: _ => d.isDigit
    else c.isDigit

/-- Mutable option state accumulated by the getopt loop of the newer
revision (option string `deflo:p:qtw`): the flags, the scope root
`parent` (default 1), and whether `-p` occurred. -/
structure Opts where
  cfg : Config
  parent : Int
  pGiven : Bool
deriving Repr, DecidableEq

/-- The state at program start: flags clear except `show_args`. -/
def defaultOpts : Opts :=
  ⟨⟨false, false, true, false, false, false⟩, 1, false⟩

/-- Effect of one no-argument option character. -/
def applyFlag (o : Opts) (c : Char) : Opts :=
  if c = 'd' then { o with cfg := { o.cfg with show_cwd := true } }
  else if c = 'e' then { o with cfg := { o.cfg with show_env := true } }
  else if c = 'f' then { o with cfg := { o.cfg with flat := true } }
  else if c = 'l' then { o with cfg := { o.cfg with full_path := true } }
  else if c = 'q' then { o with cfg := { o.cfg with show_args := false } }
  else if c = 't' then { o with cfg := { o.cfg with show_exit := true } }
  else o

/-- The no-argument option characters of the option string (`w` is
accepted and ignored). -/
def optFlags : List Char := ['d', 'e', 'f', 'l', 'q', 't', 'w']

/-- `case 'p': parent = atoi(optarg);` -/
def setParent (o : Opts) (arg : List Char) : Opts :=
  { o with parent := atoi arg, pGiven := true }

/-- Result of scanning the option characters of one `-xyz` argument:
either only flag characters occurred, or an argument-taking option was
reached with its argument either attached (rest of the same word) or to
be taken from the next word, or an unknown option character occurred. -/
inductive ShortRes where
  | flags (o : Opts)
  | needArg (c : Char) (o : Opts)
  | inlineArg (c : Char) (arg : List Char) (o : Opts)
  | bad
deriving Repr, DecidableEq

/-- Scan the option characters of one option word. -/
def scanShort (o : Opts) : List Char → ShortRes
  | [] => .flags o
  | c :: cs =>
    if optFlags.contains c then scanShort (applyFlag o c) cs
    else if c = 'p' ∨ c = 'o' then
      if cs = [] then .needArg c o else .inlineArg c cs o
    else .bad

/-- Result of the whole getopt loop: usage error (unknown option or
missing option argument — `getopt` returns `?`, reaching the `default:
goto usage` case), fatal `-o` open failure (`perror` + `exit(1)`), or
a parsed option state plus the remaining operands. -/
inductive ParseRes where
  | usage
  | fatalOpen
  | ok (o : Opts) (rest : List String)
deriving Repr, DecidableEq

/-- The getopt loop (BSD getopt: processing stops at the first non-option
word or at `--`; `fok` tells whether `fopen(optarg, "w")` succeeds for a
given `-o` argument). -/
def parseArgs (fok : List Char → Bool) : List String → Opts → ParseRes
  | [], o => .ok o []
  | a :: rest, o =>
    match a.toList with
    | c0 :: c :: cs =>
      if c0 = Char.ofNat 45 then
        if c = Char.ofNat 45 ∧ cs = [] then .ok o rest
        else
          match scanShort o (c :: cs) with
          | .flags o1 => parseArgs fok rest o1
          | .bad => .usage
          | .inlineArg oc arg o1 =>
            if oc = 'p' then parseArgs fok rest (setParent o1 arg)
            else if fok arg then parseArgs fok rest o1
            else .fatalOpen
          | .needArg oc o1 =>
            match rest with
            | [] => .usage
            | b :: rest2 =>
              if oc = 'p' then parseArgs fok rest2 (setParent o1 b.toList)
              else if fok b.toList then parseArgs fok rest2 o1
              else .fatalOpen
      else .ok o (a :: rest)
    | _ => .ok o (a :: rest)

/-- How startup ends before the dispatch loop: a usage message on stderr
plus `exit(1)`, a fatal `-o` open failure, or proceeding into setup with
the given scope root and command operands. -/
inductive StartRes where
  | usageExit
  | fatalOpen
  | proceed (parent : Int) (cmd : List String) (o : Opts)
deriving Repr, DecidableEq

/-- The startup decision of `main` after the getopt loop:
`if (parent != 1 && optind != argc) goto usage;`. -/
def startup (fok : List Char → Bool) (args : List String) : StartRes :=
  match parseArgs fok args defaultOpts with
  | .usage => .usageExit
  | .fatalOpen => .fatalOpen
  | .ok o rest =>
    if o.parent ≠ 1 ∧ rest ≠ [] then .usageExit
    else .proceed o.parent rest o

/-- The explicit-root subscription armed after startup when the scope
root is not 1: `EV_SET(&kev[0], parent, EVFILT_PROC, EV_ADD,
NOTE_EXEC | NOTE_TRACK, 0, 0)` (the system-wide bootstrap runs
instead when `parent == 1`). -/
def initialSubscription (parent : Int) : Option KEvent :=
  if parent ≠ 1 then some ⟨parent, EVFILT_PROC, EV_ADD, NOTE_EXEC ||| NOTE_TRACK⟩
  else none

/-! ### Concrete fixtures used by witnesses and counterexamples -/

/-- The zero-initialized ledger the program starts with. -/
def dbEmpty : List PidEntry := List.replicate PID_DB_SIZE emptyEntry

/-- Number of occupied ledger slots holding the given pid. -/
def occupiedCount (db : List PidEntry) (pid : Int) : Nat :=
  (db.filter (fun e => e.pid = pid)).length

/-- A small process tree: pids 2–9 are children of the root 1; everything
else is unknown to the kernel. -/
def stSmall : SysState :=
  ⟨1, fun p => if 2 ≤ p ∧ p ≤ 9 then some ⟨1, 0, 0⟩ else none⟩

/-- A three-level chain 1 → 2 → 3 rooted at 1. -/
def stChain : SysState :=
  ⟨1, fun p =>
    if p = 3 then some ⟨2, 0, 0⟩
    else if p = 2 then some ⟨1, 0, 0⟩
    else if p = 1 then some ⟨0, 0, 0⟩
    else none⟩

/-- A kernel where pid 6 has parent 5 but pid 5's record is gone. -/
def stGone : SysState :=
  ⟨1, fun p => if p = 6 then some ⟨5, 0, 0⟩ else none⟩

/-- A kernel where pid 4's parent is 0 (reparented/vanished ancestry). -/
def stZero : SysState :=
  ⟨1, fun p => if p = 4 then some ⟨0, 0, 0⟩ else none⟩

/-- A ledger whose first slot caches depth 7 for pid 5. -/
def dbCached : List PidEntry :=
  ⟨5, 7, 0, []⟩ :: List.replicate (PID_DB_SIZE - 1) emptyEntry

/-- A ledger tracking exactly pid 7 in its first slot. -/
def dbOne : List PidEntry :=
  ⟨7, 1, 0, ['x']⟩ :: List.replicate (PID_DB_SIZE - 1) emptyEntry

/-- A ledger whose first `PID_DB_SIZE - 1` slots are all occupied by the
pids 10000, 10001, …; the last slot is free. -/
def dbFull : List PidEntry :=
  (List.range (PID_DB_SIZE - 1)).map (fun j => ⟨10000 + (j : Int), 0, 0, []⟩) ++ [emptyEntry]

/-- Exit tracking on, flat output: the ledger is in use, indentation is
not. -/
def cfgTrack : Config :=
  ⟨true, false, true, false, false, true⟩

/-- Hierarchical output without exit tracking (the default flags). -/
def cfgPlain : Config :=
  ⟨false, false, true, false, false, false⟩

/-- An exec-handler oracle where every fetch succeeds: argv is `["x"]`
and the clock reads 100. -/
def envOK : ExecEnv :=
  ⟨some ⟨1, 0, 0⟩, some [['x']], 0, [], 0, [], none, 100⟩

/-- An exec-handler oracle whose `kvm_getprocs` call fails. -/
def envNoProc : ExecEnv :=
  ⟨none, some [['x']], 0, [], 0, [], none, 100⟩

/-- An exec-handler oracle whose `kvm_getargv` call fails. -/
def envNoArgv : ExecEnv :=
  ⟨some ⟨1, 0, 0⟩, none, 0, [], 0, [], none, 100⟩

/-- The ledger after: exec 2, exec 3, exit 2, exec 3 again — the event
sequence on which the claim-level slot-uniqueness invariant breaks. -/
def dbDup : List PidEntry :=
  let db1 := (handle_exec cfgTrack stSmall envOK 4 dbEmpty 2).db
  let db2 := (handle_exec cfgTrack stSmall envOK 4 db1 3).db
  let db3 := (handle_exit true db2 2 0 200).1
  (handle_exec cfgTrack stSmall envOK 4 db3 3).db

/-- A bootstrap process listing that changes between attempts. -/
def lpBoot : Nat → Option (List BProc) :=
  fun n => if n = 0 then some [⟨7, 1, 2⟩, ⟨0, 0, 0⟩, ⟨9, 1, SZOMB⟩] else some [⟨8, 1, 2⟩]

/-- A bootstrap arming oracle failing with `ESRCH` on the first attempt
and succeeding afterwards. -/
def aeBoot : Nat → List KEvent → Option Nat :=
  fun n _ => if n = 0 then some ESRCH else none

/-- A bootstrap arming oracle failing with `EPERM` (errno 1). -/
def aePerm : Nat → List KEvent → Option Nat :=
  fun _ _ => some 1

/-- An `fopen` oracle that always succeeds (no `-o` option appears in the
concrete command lines below). -/
def fokT : List Char → Bool := fun _ => true

/-! ### Helper lemmas about the ledger -/

theorem dbGet_nil (i : Nat) : dbGet [] i = emptyEntry := by
  cases i <;> rfl

theorem dbGet_cons_succ (e : PidEntry) (es : List PidEntry) (i : Nat) :
    dbGet (e :: es) (i + 1) = dbGet es i := rfl

theorem dbGet_of_length_le (db : List PidEntry) (i : Nat) (h : db.length ≤ i) :
    dbGet db i = emptyEntry :=
  List.getD_eq_default _ _ h

theorem dbGet_set_self (db : List PidEntry) (i : Nat) (e : PidEntry)
    (h : i < db.length) : dbGet (db.set i e) i = e := by
  induction db generalizing i with
  | nil => simp at h
  | cons a as ih =>
    cases i with
    | zero => rfl
    | succ j =>
      simp only [List.set, dbGet_cons_succ]
      exact ih j (by simpa using h)

theorem dbGet_set_other (db : List PidEntry) (i j : Nat) (e : PidEntry)
    (h : i ≠ j) : dbGet (db.set i e) j = dbGet db j := by
  induction db generalizing i j with
  | nil => simp [List.set]
  | cons a as ih =>
    cases i with
    | zero =>
      cases j with
      | zero => exact absurd rfl h
      | succ k => rfl
    | succ i0 =>
      cases j with
      | zero => rfl
      | succ k =>
        simp only [List.set, dbGet_cons_succ]
        exact ih i0 k (fun hc => h (by rw [hc]))

theorem dbGet_lt_length (db : List PidEntry) (i : Nat) (pid : Int)
    (hp : (dbGet db i).pid = pid) (hnz : pid ≠ 0) : i < db.length := by
  by_contra hge
  rw [dbGet_of_length_le db i (Nat.le_of_not_lt hge)] at hp
  exact hnz (hp ▸ rfl)

theorem occupiedCount_set_same (db : List PidEntry) (i : Nat) (e : PidEntry)
    (pid : Int) (hold : (dbGet db i).pid = pid) (hnew : e.pid = pid)
    (h : i < db.length) :
    occupiedCount (db.set i e) pid = occupiedCount db pid := by
  induction db generalizing i with
  | nil => simp at h
  | cons a as ih =>
    cases i with
    | zero =>
      have ha : a.pid = pid := hold
      simp [occupiedCount, List.filter, ha, hnew]
    | succ j =>
      have hj : j < as.length := by simpa using h
      have tail := ih j hold hj
      simp only [List.set]
      by_cases hap : a.pid = pid <;>
        simp [occupiedCount, List.filter, hap] at tail ⊢ <;> omega

/-! ### Helper lemmas about the find-or-claim scan -/

theorem findIdxAux_le (pid : Int) (b : Nat) (db : List PidEntry) :
    findIdxAux pid b db ≤ b := by
  induction b generalizing db with
  | zero => simp [findIdxAux]
  | succ n ih =>
    cases db with
    | nil => simp [findIdxAux]
    | cons e es =>
      simp only [findIdxAux]
      split
      · exact Nat.zero_le _
      · exact Nat.succ_le_succ (ih es)

theorem findIdxAux_before (pid : Int) (b : Nat) (db : List PidEntry) :
    ∀ j, j < findIdxAux pid b db →
      (dbGet db j).pid ≠ 0 ∧ (dbGet db j).pid ≠ pid := by
  induction b generalizing db with
  | zero => intro j hj; simp [findIdxAux] at hj
  | succ n ih =>
    cases db with
    | nil => intro j hj; simp [findIdxAux] at hj
    | cons e es =>
      intro j hj
      simp only [findIdxAux] at hj
      by_cases hbr : e.pid = 0 ∨ e.pid = pid
      · rw [if_pos hbr] at hj; exact absurd hj (Nat.not_lt_zero j)
      · rw [if_neg hbr] at hj
        push_neg at hbr
        cases j with
        | zero => exact hbr
        | succ k =>
          rw [dbGet_cons_succ]
          exact ih es k (Nat.lt_of_succ_lt_succ hj)

theorem findIdxAux_found (pid : Int) (b : Nat) (db : List PidEntry)
    (h : findIdxAux pid b db < b) :
    (dbGet db (findIdxAux pid b db)).pid = 0 ∨
    (dbGet db (findIdxAux pid b db)).pid = pid := by
  induction b generalizing db with
  | zero => exact absurd h (Nat.not_lt_zero _)
  | succ n ih =>
    cases db with
    | nil => left; rfl
    | cons e es =>
      simp only [findIdxAux] at h ⊢
      by_cases hbr : e.pid = 0 ∨ e.pid = pid
      · rw [if_pos hbr]; exact hbr
      · rw [if_neg hbr] at h ⊢
        rw [dbGet_cons_succ]
        exact ih es (Nat.lt_of_succ_lt_succ h)

theorem findIdxAux_of_all_occupied (pid : Int) (b : Nat) (db : List PidEntry)
    (h : ∀ j, j < b → (dbGet db j).pid ≠ 0 ∧ (dbGet db j).pid ≠ pid) :
    findIdxAux pid b db = b := by
  induction b generalizing db with
  | zero => simp [findIdxAux]
  | succ n ih =>
    cases db with
    | nil =>
      have h0 := h 0 (Nat.succ_pos n)
      rw [dbGet_nil] at h0
      exact absurd rfl h0.1
    | cons e es =>
      have h0 := h 0 (Nat.succ_pos n)
      simp only [findIdxAux]
      rw [if_neg (by rintro (hc | hc) <;> [exact h0.1 hc; exact h0.2 hc])]
      rw [ih es (fun j hj => h (j + 1) (Nat.succ_lt_succ hj))]

theorem findIdxAux_take (pid : Int) (b : Nat) (db : List PidEntry) :
    findIdxAux pid b db = findIdxAux pid b (db.take b) := by
  induction b generalizing db with
  | zero => rfl
  | succ n ih =>
    cases db with
    | nil => rfl
    | cons e es => simp only [findIdxAux, List.take]; rw [ih es]

theorem findIdx_le (db : List PidEntry) (pid : Int) :
    findIdx db pid ≤ PID_DB_SIZE - 1 :=
  findIdxAux_le pid (PID_DB_SIZE - 1) db

theorem findIdx_of_all_occupied (db : List PidEntry) (pid : Int)
    (h : ∀ j, j < PID_DB_SIZE - 1 → (dbGet db j).pid ≠ 0 ∧ (dbGet db j).pid ≠ pid) :
    findIdx db pid = PID_DB_SIZE - 1 :=
  findIdxAux_of_all_occupied pid (PID_DB_SIZE - 1) db h

/-! ### Helper lemmas about the ancestry resolver -/

/-- Because the cache-consulting loop lacks a `break`, the fall-off test
always succeeds and the scan result is discarded: the two revisions'
resolvers compute the same value. -/
theorem pid_depth_eq_old (st : SysState) (db : List PidEntry) :
    ∀ (fuel : Nat) (pid : Int), pid_depth st db fuel pid = pid_depth_old st fuel pid := by
  intro fuel
  induction fuel with
  | zero => intro pid; rfl
  | succ n ih =>
    intro pid
    simp only [pid_depth, pid_depth_old]
    cases st.getproc pid with
    | none => rfl
    | some kp => simp [cacheScanFinal, ih]

theorem pid_depth_old_chain (st : SysState) :
    ∀ (l : List Int) (fuel : Nat), chainOK st l = true → l.length ≤ fuel →
      pid_depth_old st fuel (l.headD 0) = (l.length : Int) - 1 := by
  intro l
  induction l with
  | nil => intro fuel h; simp [chainOK] at h
  | cons p rest ih =>
    intro fuel hok hfuel
    match fuel, hfuel with
    | fuel + 1, hfuel =>
      cases rest with
      | nil =>
        simp only [chainOK, Bool.and_eq_true, decide_eq_true_eq,
          Option.isSome_iff_exists] at hok
        obtain ⟨hp, kp, hkp⟩ := hok
        subst hp
        simp [pid_depth_old, hkp]
      | cons q rest2 =>
        simp only [chainOK, Bool.and_eq_true, decide_eq_true_eq,
          Bool.or_eq_true] at hok
        obtain ⟨⟨⟨hmat, hne⟩, hq0⟩, hchain⟩ := hok
        cases hgp : st.getproc p with
        | none => rw [hgp] at hmat; simp at hmat
        | some kp =>
          rw [hgp] at hmat
          simp only [decide_eq_true_eq] at hmat
          by_cases hqr : q = st.parent
          · cases rest2 with
            | nil =>
              simp [pid_depth_old, hgp, hne, hmat, hqr]
            | cons r rest3 =>
              simp only [chainOK, Bool.and_eq_true, decide_eq_true_eq] at hchain
              exact absurd hqr hchain.1.1.2
          · have hq0n : q ≠ 0 := by
              rcases hq0 with hq | hq
              · exact absurd hq hqr
              · exact hq
            have hrec := ih fuel hchain (Nat.le_of_succ_le_succ hfuel)
            have hrec2 : pid_depth_old st fuel q = (rest2.length : Int) := by
              simpa using hrec
            simp only [List.headD, pid_depth_old, hgp, hmat]
            rw [if_neg hne, if_neg hqr, if_neg hq0n, hrec2]
            rw [if_neg (by omega : ¬ (rest2.length : Int) = -1)]
            simp only [List.length_cons]
            push_cast
            ring

/-! ### C1 -/

/-- Claim C1: for a fully resolvable ancestry chain of length `k` from the
scope root down to `p`, the resolver returns depth `k` (0 when `p` is the
root, 1 when `p`'s parent is the root), and it returns the out-of-scope
result `-1` — not an error — when the process record for the queried pid
cannot be fetched or when the walk meets a pid whose parent is 0. -/
theorem C1_pid_depth_resolves :
    (∀ (st : SysState) (db : List PidEntry) (l : List Int) (fuel : Nat),
       chainOK st l = true → l.length ≤ fuel →
       pid_depth st db fuel (l.headD 0) = (l.length : Int) - 1)
    ∧ (∀ (st : SysState) (db : List PidEntry) (p : Int) (fuel : Nat),
       st.getproc p = none → pid_depth st db (fuel + 1) p = -1)
    ∧ (∀ (st : SysState) (db : List PidEntry) (p : Int) (kp : KProc) (fuel : Nat),
       st.getproc p = some kp → kp.ppid = 0 → p ≠ st.parent → st.parent ≠ 0 →
       pid_depth st db (fuel + 1) p = -1)
    ∧ (∀ (st : SysState) (db : List PidEntry) (p : Int) (kp : KProc) (fuel : Nat),
       st.getproc p = some kp → p ≠ st.parent → kp.ppid ≠ st.parent → kp.ppid ≠ 0 →
       pid_depth st db fuel kp.ppid = -1 →
       pid_depth st db (fuel + 1) p = -1) := by
  refine ⟨?_, ?_, ?_, ?_⟩
  · intro st db l fuel hok hfuel
    rw [pid_depth_eq_old]
    exact pid_depth_old_chain st l fuel hok hfuel
  · intro st db p fuel hnone
    simp [pid_depth, hnone]
  · intro st db p kp fuel hkp hpp hne hroot
    simp only [pid_depth, hkp]
    rw [if_neg hne, if_neg (by rw [hpp]; exact fun hc => hroot hc.symm), if_pos hpp]
  · intro st db p kp fuel hkp hne hppne hpp0 hdm1
    simp only [pid_depth, hkp]
    rw [if_neg hne, if_neg hppne, if_neg hpp0]
    simp [cacheScanFinal, hdm1]

/-- Witness for C1: the chain 1 → 2 → 3 resolves to depth 2 with fuel 3;
an unfetchable pid, a pid with parent 0, and a pid whose parent is out of
scope all resolve to -1. -/
theorem C1_witness :
    chainOK stChain [3, 2, 1] = true ∧ ([3, 2, 1] : List Int).length ≤ 3 ∧
    pid_depth stChain dbEmpty 3 3 = 2 ∧
    pid_depth stGone dbEmpty 4 5 = -1 ∧
    pid_depth stZero dbEmpty 4 4 = -1 ∧
    pid_depth stGone dbEmpty 4 6 = -1 := by
  refine ⟨by decide, by decide, ?_, ?_, ?_, ?_⟩
  · have h := C1_pid_depth_resolves.1 stChain dbEmpty [3, 2, 1] 3 (by decide) (by decide)
    simpa using h
  · exact C1_pid_depth_resolves.2.1 stGone dbEmpty 5 3 (by decide)
  · exact C1_pid_depth_resolves.2.2.1 stZero dbEmpty 4 ⟨0, 0, 0⟩ 3 (by decide)
      rfl (by decide) (by decide)
  · exact C1_pid_depth_resolves.2.2.2 stGone dbEmpty 6 ⟨5, 0, 0⟩ 3 (by decide)
      (by decide) (by decide) (by decide) (by decide)

/-! ### C4 -/

/-- Counterexample to claim C4 as stated: the ledger caches depth 7 for
pid 5 (the parent of pid 6), so the claim demands that resolving pid 6
return `7 + 1 = 8` without recursing; the code instead recurses into
pid 5, whose record fetch fails, and returns `-1`.  The spec-worded
resolver `pid_depth_specCache` indeed returns 8 on the same input. -/
theorem C4_counterexample :
    cacheScan dbCached 5 = some 7 ∧
    pid_depth stGone dbCached 4 6 = -1 ∧
    pid_depth_specCache stGone dbCached 4 6 = 8 := by
  refine ⟨by decide, by decide, by decide⟩

/-- Claim C4, amended: the cache-consulting loop lacks a `break`, so the
resolver's fall-off test always reports a miss; the resolver therefore
ignores the ledger entirely — its result does not depend on the ledger
contents, and it always recursively resolves the parent's depth, exactly
as the older revision's cache-less resolver does (and it performs no
caching of its own: the ledger write happens in `handle_exec`, for the
event's own pid only). -/
theorem C4_amended_ignores_cache :
    ∀ (st : SysState) (db db2 : List PidEntry) (fuel : Nat) (pid : Int),
      pid_depth st db fuel pid = pid_depth st db2 fuel pid ∧
      pid_depth st db fuel pid = pid_depth_old st fuel pid := by
  intro st db db2 fuel pid
  rw [pid_depth_eq_old st db, pid_depth_eq_old st db2]
  exact ⟨rfl, rfl⟩

/-! ### Helper lemma: the claiming branch of handle_exec -/

/-- When the depth resolves, both fetches succeed, the ledger is in use
(`show_exit || !flat`), and the re-exec branch is not taken, `handle_exec`
overwrites all fields of the slot the find-or-claim scan selected, prints
the overflow warning exactly when the scan fell off the end, and calls no
`warn()`. -/
theorem handle_exec_claim_branch (cfg : Config) (st : SysState) (env : ExecEnv)
    (fuel : Nat) (db : List PidEntry) (pid : Int) (kp : KProc)
    (argv : List (List Char))
    (hkp : env.kp2 = some kp) (hargv : env.argv = some argv)
    (hd : 0 ≤ pid_depth st db fuel pid)
    (hscan : (cfg.show_exit || !cfg.flat) = true)
    (hre : (cfg.show_exit && decide ((dbGet db (findIdx db pid)).pid = pid)) = false)
    (hlen : findIdx db pid < db.length) :
    (handle_exec cfg st env fuel db pid).db =
      db.set (findIdx db pid)
        ⟨pid, pid_depth st db fuel pid, kp.start,
         truncCmd (if cfg.full_path then
                     (if env.pathRet ≠ 1 then env.pathBuf else argv.headD [])
                   else argv.headD [])⟩
    ∧ (handle_exec cfg st env fuel db pid).overflowWarned =
        decide (findIdx db pid = PID_DB_SIZE - 1)
    ∧ (handle_exec cfg st env fuel db pid).errWarned = false := by
  simp only [handle_exec, hkp, hargv]
  rw [if_neg (not_lt.mpr hd)]
  simp only [hscan, hre, if_true, Bool.false_eq_true, if_false, true_and]
  refine ⟨?_, by trivial, by trivial⟩
  rw [dbGet_set_self db (findIdx db pid) _ hlen, List.set_set]

/-! ### C2 -/

/-- Counterexample to claim C2 as stated: after the event sequence
exec 2, exec 3, exit 2, exec 3 (all pids live children of the root, exit
tracking on), the live pid 3 occupies two ledger slots at once: the exit
of pid 2 freed slot 0, and the second exec of pid 3 claimed that free
slot because the find-or-claim scan breaks at the first free-or-matching
slot, never reaching pid 3's existing slot 1. -/
theorem C2_counterexample :
    occupiedCount dbDup 3 = 2 ∧
    (dbGet dbDup 0).pid = 3 ∧ (dbGet dbDup 1).pid = 3 := by
  refine ⟨by decide, by decide, by decide⟩

/-- Claim C2, amended: the find-or-claim scan locates the first slot among
the first `PID_DB_SIZE - 1` that is free or holds the PID (every earlier
slot is occupied by a different pid); consequently an exec event for an
already-tracked PID overwrites its slot in place without creating a
duplicate only when the scan actually reaches that slot (no free slot
precedes it), and the exit event resets the pid key of the first
free-or-matching slot — not necessarily the PID's own slot — to the free
sentinel. -/
theorem C2_amended :
    (∀ (db : List PidEntry) (pid : Int),
       findIdx db pid ≤ PID_DB_SIZE - 1
       ∧ (∀ j, j < findIdx db pid → (dbGet db j).pid ≠ 0 ∧ (dbGet db j).pid ≠ pid)
       ∧ (findIdx db pid < PID_DB_SIZE - 1 →
            (dbGet db (findIdx db pid)).pid = 0 ∨ (dbGet db (findIdx db pid)).pid = pid))
    ∧ (∀ (cfg : Config) (st : SysState) (env : ExecEnv) (fuel : Nat)
         (db : List PidEntry) (pid : Int) (kp : KProc) (argv : List (List Char)),
       cfg.flat = false → cfg.show_exit = false →
       env.kp2 = some kp → env.argv = some argv →
       0 ≤ pid_depth st db fuel pid →
       (dbGet db (findIdx db pid)).pid = pid → pid ≠ 0 →
       occupiedCount db pid = 1 →
       occupiedCount (handle_exec cfg st env fuel db pid).db pid = 1
       ∧ (dbGet (handle_exec cfg st env fuel db pid).db (findIdx db pid)).pid = pid
       ∧ ∀ j, j ≠ findIdx db pid →
           dbGet (handle_exec cfg st env fuel db pid).db j = dbGet db j)
    ∧ (∀ (db : List PidEntry) (pid status now : Int),
       (handle_exit true db pid status now).1 =
         db.set (findIdx db pid) { dbGet db (findIdx db pid) with pid := 0 }) := by
  refine ⟨?_, ?_, ?_⟩
  · intro db pid
    exact ⟨findIdx_le db pid,
           findIdxAux_before pid (PID_DB_SIZE - 1) db,
           findIdxAux_found pid (PID_DB_SIZE - 1) db⟩
  · intro cfg st env fuel db pid kp argv hflat hse hkp hargv hd htr hnz hcount
    have hlen : findIdx db pid < db.length :=
      dbGet_lt_length db (findIdx db pid) pid htr hnz
    have hscan : (cfg.show_exit || !cfg.flat) = true := by
      rw [hflat, hse]; rfl
    have hre : (cfg.show_exit && decide ((dbGet db (findIdx db pid)).pid = pid)) = false := by
      rw [hse]; rfl
    obtain ⟨hdb, -, -⟩ :=
      handle_exec_claim_branch cfg st env fuel db pid kp argv hkp hargv hd hscan hre hlen
    rw [hdb]
    refine ⟨?_, ?_, ?_⟩
    · exact hcount ▸ occupiedCount_set_same db (findIdx db pid) _ pid htr rfl hlen
    · rw [dbGet_set_self db (findIdx db pid) _ hlen]
    · intro j hj
      exact dbGet_set_other db (findIdx db pid) j _ (fun hc => hj hc.symm)
  · intro db pid status now
    simp [handle_exit]

/-- Witness for C2's amended theorem: a ledger tracking pid 7 in slot 0
with no free slot before it; the exec event updates slot 0 in place and
pid 7 still occupies exactly one slot. -/
theorem C2_witness :
    occupiedCount dbOne 7 = 1 ∧
    (occupiedCount (handle_exec cfgPlain stSmall envOK 4 dbOne 7).db 7 = 1
     ∧ (dbGet (handle_exec cfgPlain stSmall envOK 4 dbOne 7).db (findIdx dbOne 7)).pid = 7
     ∧ ∀ j, j ≠ findIdx dbOne 7 →
         dbGet (handle_exec cfgPlain stSmall envOK 4 dbOne 7).db j = dbGet dbOne j) :=
  ⟨by decide,
   C2_amended.2.1 cfgPlain stSmall envOK 4 dbOne 7 ⟨1, 0, 0⟩ [['x']]
     rfl rfl rfl rfl (by decide) (by decide) (by decide) (by decide)⟩

/-! ### C3 -/

/-- Counterexample to claim C3 as stated: with the first 1023 slots
occupied by other pids, an exec for untracked pid 5 prints the overflow
warning and writes pid 5 into the last slot (index 1023), and the very
next overflowing exec (pid 6) prints the warning again — the warning is
emitted on every overflowing event, not only the first time, and the last
slot's contents are overwritten each time. -/
theorem C3_counterexample :
    (handle_exec cfgTrack stSmall envOK 4 dbFull 5).overflowWarned = true ∧
    (dbGet (handle_exec cfgTrack stSmall envOK 4 dbFull 5).db 1023).pid = 5 ∧
    (handle_exec cfgTrack stSmall envOK 4
       (handle_exec cfgTrack stSmall envOK 4 dbFull 5).db 6).overflowWarned = true ∧
    (dbGet (handle_exec cfgTrack stSmall envOK 4
       (handle_exec cfgTrack stSmall envOK 4 dbFull 5).db 6).db 1023).pid = 6 := by
  refine ⟨by decide, by decide, by decide, by decide⟩

/-- Claim C3, amended: when the ledger is in use and every scanned slot
(the first `PID_DB_SIZE - 1`) is occupied by other pids, an exec for an
untracked pid falls off the scan; the handler then prints the overflow
warning (it does so on every such event, having no first-time latch),
leaves slots 0 … `PID_DB_SIZE - 2` unchanged, and writes the new entry
into the final slot `PID_DB_SIZE - 1` — a slot the find-or-claim scan
never examines, so the entry is invisible to subsequent claims; the
program does not crash (the handler remains total). -/
theorem C3_amended :
    ∀ (cfg : Config) (st : SysState) (env : ExecEnv) (fuel : Nat)
      (db : List PidEntry) (pid : Int) (kp : KProc) (argv : List (List Char)),
      (cfg.show_exit || !cfg.flat) = true →
      env.kp2 = some kp → env.argv = some argv →
      0 ≤ pid_depth st db fuel pid →
      db.length = PID_DB_SIZE →
      (∀ j, j < PID_DB_SIZE - 1 → (dbGet db j).pid ≠ 0 ∧ (dbGet db j).pid ≠ pid) →
      (dbGet db (PID_DB_SIZE - 1)).pid ≠ pid →
      (handle_exec cfg st env fuel db pid).overflowWarned = true
      ∧ (∀ j, j < PID_DB_SIZE - 1 →
          dbGet (handle_exec cfg st env fuel db pid).db j = dbGet db j)
      ∧ (dbGet (handle_exec cfg st env fuel db pid).db (PID_DB_SIZE - 1)).pid = pid
      ∧ (∀ (db2 : List PidEntry) (q : Int),
          findIdx db2 q = findIdx (db2.take (PID_DB_SIZE - 1)) q) := by
  intro cfg st env fuel db pid kp argv hscan hkp hargv hd hlen hfull hlast
  have hidx : findIdx db pid = PID_DB_SIZE - 1 := findIdx_of_all_occupied db pid hfull
  have hre : (cfg.show_exit && decide ((dbGet db (findIdx db pid)).pid = pid)) = false := by
    rw [hidx]
    simp [hlast]
  have hlt : findIdx db pid < db.length := by
    rw [hidx, hlen]
    decide
  obtain ⟨hdb, hwarn, -⟩ :=
    handle_exec_claim_branch cfg st env fuel db pid kp argv hkp hargv hd hscan hre hlt
  refine ⟨?_, ?_, ?_, ?_⟩
  · rw [hwarn, hidx]
    simp
  · intro j hj
    rw [hdb, hidx]
    exact dbGet_set_other db (PID_DB_SIZE - 1) j _ (by omega)
  · rw [hdb, hidx]
    rw [dbGet_set_self db (PID_DB_SIZE - 1) _ (by rw [hlen]; decide)]
  · intro db2 q
    exact findIdxAux_take q (PID_DB_SIZE - 1) db2

theorem dbFull_get (j : Nat) (hj : j < PID_DB_SIZE - 1) :
    dbGet dbFull j = ⟨10000 + (j : Int), 0, 0, []⟩ := by
  unfold dbFull dbGet
  rw [List.getD_append _ _ _ _ (by simpa using hj),
    List.getD_eq_getElem _ _ (by simpa using hj)]
  simp

/-- Witness for C3's amended theorem, at the full concrete ledger. -/
theorem C3_witness :
    (handle_exec cfgTrack stSmall envOK 4 dbFull 5).overflowWarned = true
    ∧ (∀ j, j < PID_DB_SIZE - 1 →
        dbGet (handle_exec cfgTrack stSmall envOK 4 dbFull 5).db j = dbGet dbFull j)
    ∧ (dbGet (handle_exec cfgTrack stSmall envOK 4 dbFull 5).db (PID_DB_SIZE - 1)).pid = 5
    ∧ (∀ (db2 : List PidEntry) (q : Int),
        findIdx db2 q = findIdx (db2.take (PID_DB_SIZE - 1)) q) :=
  C3_amended cfgTrack stSmall envOK 4 dbFull 5 ⟨1, 0, 0⟩ [['x']]
    rfl rfl rfl (by decide) (by decide)
    (fun j hj => by rw [dbFull_get j hj]; constructor <;> simp <;> omega)
    (by decide)

/-! ### C5 -/

/-- Counterexample to claim C5 as stated: in the older revision
`extrace.c`, a failed `kvm_getprocs` during exec handling reaches
`err(1, "kvm_getprocs")`, which terminates the program (modelled as
`none`) instead of emitting a degraded line and continuing. -/
theorem C5_counterexample :
    handle_msg cfgTrack stSmall envNoProc 4 42 = none := by decide

/-- Claim C5, amended: in the newer revision's `handle_exec`, once the
depth has resolved, a failed process-record or argument-vector fetch
emits exactly a bare newline (the blank continuation line), calls
`warn()`, leaves the ledger unchanged and returns, so processing
continues; in the older revision's `handle_msg`, the same failures
terminate the program through `err(1, ...)`. -/
theorem C5_amended :
    (∀ (cfg : Config) (st : SysState) (env : ExecEnv) (fuel : Nat)
       (db : List PidEntry) (pid : Int),
       0 ≤ pid_depth st db fuel pid → env.kp2 = none →
       handle_exec cfg st env fuel db pid = ⟨db, [Out.newline], false, true⟩)
    ∧ (∀ (cfg : Config) (st : SysState) (env : ExecEnv) (fuel : Nat)
       (db : List PidEntry) (pid : Int) (kp : KProc),
       0 ≤ pid_depth st db fuel pid → env.kp2 = some kp → env.argv = none →
       handle_exec cfg st env fuel db pid = ⟨db, [Out.newline], false, true⟩)
    ∧ (∀ (cfg : Config) (st : SysState) (env : ExecEnv) (fuel : Nat) (pid : Int),
       cfg.flat = true → env.kp2 = none →
       handle_msg cfg st env fuel pid = none)
    ∧ (∀ (cfg : Config) (st : SysState) (env : ExecEnv) (fuel : Nat) (pid : Int) (kp : KProc),
       cfg.flat = true → env.kp2 = some kp → env.argv = none →
       handle_msg cfg st env fuel pid = none) := by
  refine ⟨?_, ?_, ?_, ?_⟩
  · intro cfg st env fuel db pid hd hkp
    simp only [handle_exec, hkp]
    rw [if_neg (not_lt.mpr hd)]
  · intro cfg st env fuel db pid kp hd hkp hargv
    simp only [handle_exec, hkp, hargv]
    rw [if_neg (not_lt.mpr hd)]
  · intro cfg st env fuel pid hflat hkp
    simp [handle_msg, hflat, hkp]
  · intro cfg st env fuel pid kp hflat hkp hargv
    simp [handle_msg, hflat, hkp, hargv]

/-- Witness for C5's amended theorem: concrete failures of each fetch in
each revision. -/
theorem C5_witness :
    handle_exec cfgTrack stSmall envNoProc 4 dbEmpty 2 = ⟨dbEmpty, [Out.newline], false, true⟩
    ∧ handle_exec cfgTrack stSmall envNoArgv 4 dbEmpty 2 = ⟨dbEmpty, [Out.newline], false, true⟩
    ∧ handle_msg cfgTrack stSmall envNoProc 4 2 = none
    ∧ handle_msg cfgTrack stSmall envNoArgv 4 2 = none :=
  ⟨C5_amended.1 cfgTrack stSmall envNoProc 4 dbEmpty 2 (by decide) rfl,
   C5_amended.2.1 cfgTrack stSmall envNoArgv 4 dbEmpty 2 ⟨1, 0, 0⟩ (by decide) rfl rfl,
   C5_amended.2.2.1 cfgTrack stSmall envNoProc 4 2 rfl rfl,
   C5_amended.2.2.2 cfgTrack stSmall envNoArgv 4 2 ⟨1, 0, 0⟩ rfl rfl rfl⟩

/-! ### C6 -/

/-- C6 names a behaviour the code does not have: an exit event for a pid
with no occupied ledger slot is not ignored.  The lookup scan breaks at
the first *free* slot as well, and a free slot's zero-initialized depth
passes the `d < 0` guard, so the handler emits an exit line built from the
free slot's empty entry.  This theorem evaluates the handler at the
failing input: an exit for the never-tracked pid 42 on the empty ledger
in the default non-flat mode emits a line (with indent 0 and the empty
cmdline) instead of nothing. -/
theorem C6_untracked_exit_emits :
    (handle_exit false dbEmpty 42 0 300).2 ≠ [] ∧
    (handle_exit false dbEmpty 42 0 300).2 =
      [Out.indent 0, Out.numDash 42, Out.shq [], Out.exitedStatus 0, Out.timeSecs 300] := by
  refine ⟨by decide, by decide⟩

/-! ### Helper lemmas for the quoting round trip -/

theorem shSpecial_facts (c : Char) (h : shSpecial c = false) :
    c ≠ SQ ∧ c ≠ Char.ofNat 34 ∧ c ≠ Char.ofNat 92 ∧ c ≠ Char.ofNat 36 ∧
    isWordBreak c = false := by
  refine ⟨?_, ?_, ?_, ?_, ?_⟩
  · rintro rfl; exact absurd h (by decide)
  · rintro rfl; exact absurd h (by decide)
  · rintro rfl; exact absurd h (by decide)
  · rintro rfl; exact absurd h (by decide)
  · have h32 : c ≠ Char.ofNat 32 := by rintro rfl; exact absurd h (by decide)
    have h9 : c ≠ Char.ofNat 9 := by rintro rfl; exact absurd h (by decide)
    have h10 : c ≠ Char.ofNat 10 := by rintro rfl; exact absurd h (by decide)
    have hdef : isWordBreak c =
        (decide (c = Char.ofNat 32) || decide (c = Char.ofNat 9) ||
         decide (c = Char.ofNat 10)) := rfl
    rw [hdef, decide_eq_false h32, decide_eq_false h9, decide_eq_false h10]
    rfl

theorem step_unq_quote (X : List Char) :
    splitWordAux (SQ :: X) .unq = splitWordAux X .sq := by
  conv_lhs => rw [splitWordAux.eq_def]
  simp

theorem step_sq_quote (X : List Char) :
    splitWordAux (SQ :: X) .sq = splitWordAux X .unq := by
  conv_lhs => rw [splitWordAux.eq_def]
  simp

theorem step_sq_other (c : Char) (X : List Char) (h : c ≠ SQ) :
    splitWordAux (c :: X) .sq = (splitWordAux X .sq).map (c :: ·) := by
  conv_lhs => rw [splitWordAux.eq_def]
  simp [h]

theorem step_unq_bsl (d : Char) (X : List Char) (h : d ≠ Char.ofNat 10) :
    splitWordAux (Char.ofNat 92 :: d :: X) .unq = (splitWordAux X .unq).map (d :: ·) := by
  have h1 : Char.ofNat 92 ≠ SQ := by decide
  have h2 : Char.ofNat 92 ≠ Char.ofNat 34 := by decide
  conv_lhs => rw [splitWordAux.eq_def]
  simp [h1, h2, h]

theorem step_unq_dollar_quote (X : List Char) :
    splitWordAux (Char.ofNat 36 :: SQ :: X) .unq = splitWordAux X .ansi := by
  have h1 : Char.ofNat 36 ≠ SQ := by decide
  have h2 : Char.ofNat 36 ≠ Char.ofNat 34 := by decide
  have h3 : Char.ofNat 36 ≠ Char.ofNat 92 := by decide
  conv_lhs => rw [splitWordAux.eq_def]
  simp [h1, h2, h3]

theorem step_ansi_quote (X : List Char) :
    splitWordAux (SQ :: X) .ansi = splitWordAux X .unq := by
  conv_lhs => rw [splitWordAux.eq_def]
  simp

theorem step_ansi_bsl_n (X : List Char) :
    splitWordAux (Char.ofNat 92 :: Char.ofNat 110 :: X) .ansi
      = (splitWordAux X .ansi).map (Char.ofNat 10 :: ·) := by
  have h1 : Char.ofNat 92 ≠ SQ := by decide
  have h2 : ansiEsc (Char.ofNat 110) = some (Char.ofNat 10) := by decide
  conv_lhs => rw [splitWordAux.eq_def]
  simp [h1, h2]

theorem step_unq_plain (c : Char) (X : List Char) (h : shSpecial c = false) :
    splitWordAux (c :: X) .unq = (splitWordAux X .unq).map (c :: ·) := by
  obtain ⟨h1, h2, h3, h4, h5⟩ := shSpecial_facts c h
  conv_lhs => rw [splitWordAux.eq_def]
  simp [h1, h2, h3, h4, h5]

theorem splitWordAux_raw (l : List Char)
    (h : l.all (fun c => !shSpecial c) = true) :
    splitWordAux l .unq = some l := by
  induction l with
  | nil => rfl
  | cons c cs ih =>
    simp only [List.all_cons, Bool.and_eq_true, Bool.not_eq_true'] at h
    rw [step_unq_plain c cs h.1, ih h.2]
    rfl

/-- Parsing the four-character escaped-quote chunk in single-quote mode
yields a quote and returns to single-quote mode. -/
theorem splitWordAux_chunk_quote (X : List Char) :
    splitWordAux (SQ :: Char.ofNat 92 :: SQ :: SQ :: X) .sq
      = (splitWordAux X .sq).map (SQ :: ·) := by
  rw [step_sq_quote, step_unq_bsl SQ _ (by decide), step_unq_quote]

/-- Parsing the seven-character ANSI-newline chunk in single-quote mode
yields a newline and returns to single-quote mode. -/
theorem splitWordAux_chunk_newline (X : List Char) :
    splitWordAux (SQ :: Char.ofNat 36 :: SQ :: Char.ofNat 92 :: Char.ofNat 110 ::
        SQ :: SQ :: X) .sq
      = (splitWordAux X .sq).map (Char.ofNat 10 :: ·) := by
  rw [step_sq_quote, step_unq_dollar_quote, step_ansi_bsl_n, step_ansi_quote,
    step_unq_quote]

theorem splitWordAux_body (l : List Char) :
    ∀ rest, splitWordAux (shquoteBody l ++ rest) .sq =
      (splitWordAux rest .sq).map (l ++ ·) := by
  induction l with
  | nil =>
    intro rest
    simp only [shquoteBody, List.flatMap_nil, List.nil_append]
    cases splitWordAux rest .sq <;> simp
  | cons c l ih =>
    intro rest
    by_cases h1 : c = SQ
    · subst h1
      have hb : shquoteBody (SQ :: l) ++ rest =
          SQ :: Char.ofNat 92 :: SQ :: SQ :: (shquoteBody l ++ rest) := by
        simp [shquoteBody, shquoteChar]
      rw [hb, splitWordAux_chunk_quote, ih rest]
      cases splitWordAux rest .sq <;> simp
    · by_cases h2 : c = Char.ofNat 10
      · subst h2
        have h3 : Char.ofNat 10 ≠ SQ := by decide
        have hb : shquoteBody (Char.ofNat 10 :: l) ++ rest =
            SQ :: Char.ofNat 36 :: SQ :: Char.ofNat 92 :: Char.ofNat 110 :: SQ :: SQ ::
              (shquoteBody l ++ rest) := by
          simp [shquoteBody, shquoteChar, h3]
        rw [hb, splitWordAux_chunk_newline, ih rest]
        cases splitWordAux rest .sq <;> simp
      · have hb : shquoteBody (c :: l) ++ rest = c :: (shquoteBody l ++ rest) := by
          simp [shquoteBody, shquoteChar, h1, h2]
        rw [hb, step_sq_other c _ h1, ih rest]
        cases splitWordAux rest .sq <;> simp

/-! ### C7 -/

/-- Claim C7: quoting is a left inverse of shell-word splitting — for
every string, including the empty string and strings containing spaces,
single quotes and newlines, parsing `print_shquoted`'s output as one
shell word recovers exactly the original string. -/
theorem C7_shquote_left_inverse :
    ∀ l : List Char, splitShellWord (print_shquoted l) = some l := by
  intro l
  unfold splitShellWord print_shquoted
  by_cases h : l ≠ [] ∧ l.all (fun c => !shSpecial c) = true
  · rw [if_pos h]
    exact splitWordAux_raw l h.2
  · rw [if_neg h]
    have hstep : splitWordAux (SQ :: shquoteBody l ++ [SQ]) .unq
        = splitWordAux (shquoteBody l ++ [SQ]) .sq := step_unq_quote _
    rw [hstep, splitWordAux_body l [SQ], step_sq_quote]
    simp [splitWordAux]

/-! ### C8 -/

theorem buildKevs_getD (se : Bool) (ps : List BProc) (i : Nat) (hi : i < ps.length) :
    (buildKevs se ps).getD i zeroKev = bootKev se (ps.getD i ⟨0, 0, 0⟩) := by
  unfold buildKevs
  rw [List.getD_eq_getElem _ _ (by simpa using hi), List.getElem_map,
    List.getD_eq_getElem _ _ hi]

/-- Claim C8: in system-wide bootstrap, an arming failure with `ESRCH`
retries the whole enumeration from scratch (the next attempt re-lists the
process table and re-arms everything); any other arming failure leaves the
loop with only a warning (non-fatal); and processes with pid 0 or parent
pid 0 and zombie processes are excluded from arming (their batch slot
remains the zero kevent), while every other listed process gets the
`EVFILT_PROC` subscription for exec (and exit, when enabled) tracking. -/
theorem C8_bootstrap_retry :
    (∀ (se : Bool) (lp : Nat → Option (List BProc))
       (ae : Nat → List KEvent → Option Nat) (fuel att : Nat) (ps : List BProc),
       lp att = some ps → ae att (buildKevs se ps) = some ESRCH →
       bootstrap se lp ae (fuel + 1) att = bootstrap se lp ae fuel (att + 1))
    ∧ (∀ (se : Bool) (lp : Nat → Option (List BProc))
       (ae : Nat → List KEvent → Option Nat) (fuel att : Nat) (ps : List BProc)
       (e : Nat),
       lp att = some ps → ae att (buildKevs se ps) = some e → e ≠ ESRCH →
       bootstrap se lp ae (fuel + 1) att = .armed (buildKevs se ps) true)
    ∧ (∀ (se : Bool) (ps : List BProc) (i : Nat), i < ps.length →
       (((ps.getD i ⟨0, 0, 0⟩).pid = 0 ∨ (ps.getD i ⟨0, 0, 0⟩).ppid = 0 ∨
           (ps.getD i ⟨0, 0, 0⟩).stat = SZOMB) →
          (buildKevs se ps).getD i zeroKev = zeroKev)
       ∧ (((ps.getD i ⟨0, 0, 0⟩).pid ≠ 0 ∧ (ps.getD i ⟨0, 0, 0⟩).ppid ≠ 0 ∧
           (ps.getD i ⟨0, 0, 0⟩).stat ≠ SZOMB) →
          (buildKevs se ps).getD i zeroKev =
            ⟨(ps.getD i ⟨0, 0, 0⟩).pid, EVFILT_PROC, EV_ADD,
             NOTE_EXEC ||| (if se then NOTE_EXIT else 0) ||| NOTE_TRACK⟩)) := by
  refine ⟨?_, ?_, ?_⟩
  · intro se lp ae fuel att ps hlp hae
    simp only [bootstrap, hlp, hae]
    simp
  · intro se lp ae fuel att ps e hlp hae he
    simp only [bootstrap, hlp, hae]
    rw [if_neg he]
  · intro se ps i hi
    rw [buildKevs_getD se ps i hi]
    generalize ps.getD i ⟨0, 0, 0⟩ = p
    constructor
    · intro hbad
      unfold bootKev
      rcases hbad with h | h | h
      · rw [if_pos (Or.inl h)]
      · rw [if_pos (Or.inr h)]
      · by_cases hp : p.pid = 0 ∨ p.ppid = 0
        · rw [if_pos hp]
        · rw [if_neg hp, if_pos h]
    · rintro ⟨hp, hpp, hs⟩
      unfold bootKev
      rw [if_neg (by rintro (hx | hx); exacts [hp hx, hpp hx]), if_neg hs]

/-- Witness for C8: a listing whose first attempt arms with `ESRCH` and is
retried; a non-`ESRCH` failure that is kept with a warning; and the filter
behaviour on a batch containing a skipped pid-0 entry, a zombie, and a
normal process. -/
theorem C8_witness :
    lpBoot 0 = some [⟨7, 1, 2⟩, ⟨0, 0, 0⟩, ⟨9, 1, SZOMB⟩] ∧
    aeBoot 0 (buildKevs true [⟨7, 1, 2⟩, ⟨0, 0, 0⟩, ⟨9, 1, SZOMB⟩]) = some ESRCH ∧
    bootstrap true lpBoot aeBoot 2 0 = bootstrap true lpBoot aeBoot 1 1 ∧
    bootstrap true lpBoot aePerm 1 0 =
      .armed (buildKevs true [⟨7, 1, 2⟩, ⟨0, 0, 0⟩, ⟨9, 1, SZOMB⟩]) true ∧
    (buildKevs true [⟨7, 1, 2⟩, ⟨0, 0, 0⟩, ⟨9, 1, SZOMB⟩]).getD 1 zeroKev = zeroKev ∧
    (buildKevs true [⟨7, 1, 2⟩, ⟨0, 0, 0⟩, ⟨9, 1, SZOMB⟩]).getD 2 zeroKev = zeroKev ∧
    (buildKevs true [⟨7, 1, 2⟩, ⟨0, 0, 0⟩, ⟨9, 1, SZOMB⟩]).getD 0 zeroKev =
      ⟨7, EVFILT_PROC, EV_ADD, NOTE_EXEC ||| (if true then NOTE_EXIT else 0) ||| NOTE_TRACK⟩ :=
  ⟨rfl, rfl,
   C8_bootstrap_retry.1 true lpBoot aeBoot 1 0 _ rfl rfl,
   C8_bootstrap_retry.2.1 true lpBoot aePerm 0 0 _ 1 rfl rfl (by decide),
   (C8_bootstrap_retry.2.2 true [⟨7, 1, 2⟩, ⟨0, 0, 0⟩, ⟨9, 1, SZOMB⟩] 1 (by decide)).1
     (by decide),
   (C8_bootstrap_retry.2.2 true [⟨7, 1, 2⟩, ⟨0, 0, 0⟩, ⟨9, 1, SZOMB⟩] 2 (by decide)).1
     (by decide),
   (C8_bootstrap_retry.2.2 true [⟨7, 1, 2⟩, ⟨0, 0, 0⟩, ⟨9, 1, SZOMB⟩] 0 (by decide)).2
     (by decide)⟩

/-! ### Argument-parsing helper lemmas -/

theorem scanShort_p (o : Opts) : scanShort o ['p'] = .needArg 'p' o := by
  have h1 : 'p' ∉ optFlags := by decide
  simp [scanShort, h1]

set_option maxHeartbeats 2000000 in
theorem parseArgs_nil (fok : List Char → Bool) (o : Opts) :
    parseArgs fok [] o = .ok o [] := by
  rw [parseArgs.eq_def]

theorem parseArgs_dash_p (fok : List Char → Bool) (v : String) (rest : List String)
    (o : Opts) :
    parseArgs fok ("-p" :: v :: rest) o = parseArgs fok rest (setParent o v.toList) := by
  have hp45 : 'p' ≠ Char.ofNat 45 := by decide
  simp only [parseArgs]
  simp [hp45]

theorem parseArgs_operand (fok : List Char → Bool) (a : String) (rest : List String)
    (o : Opts) (ha : a.toList.headD (Char.ofNat 32) ≠ Char.ofNat 45) :
    parseArgs fok (a :: rest) o = .ok o (a :: rest) := by
  simp only [parseArgs]
  cases hc : a.toList with
  | nil => rfl
  | cons c0 cs =>
    rw [hc] at ha
    cases cs with
    | nil => rfl
    | cons c cs2 =>
      have h45 : c0 ≠ Char.ofNat 45 := by simpa using ha
      simp [h45]

theorem digitsVal_nondigit (d : Char) (cs : List Char) (acc : Int)
    (h : d.isDigit = false) : digitsVal (d :: cs) acc = acc := by
  simp [digitsVal, h]

theorem atoi_eq_zero (l : List Char) (h : beginsWithDecimal l = false) :
    atoi l = 0 := by
  unfold beginsWithDecimal at h
  unfold atoi
  cases hs : skipSpaces l with
  | nil => rfl
  | cons c cs =>
    rw [hs] at h
    show (if c = Char.ofNat 45 then -(digitsVal cs 0)
          else if c = Char.ofNat 43 then digitsVal cs 0
          else digitsVal (c :: cs) 0) = 0
    cases cs with
    | nil =>
      have h2 : (if c = Char.ofNat 45 ∨ c = Char.ofNat 43 then false
          else c.isDigit) = false := h
      by_cases hsign : c = Char.ofNat 45 ∨ c = Char.ofNat 43
      · rcases hsign with h45 | h43
        · rw [if_pos h45]; simp [digitsVal]
        · rw [if_neg (by rw [h43]; decide), if_pos h43]; simp [digitsVal]
      · rw [if_neg hsign] at h2
        push_neg at hsign
        rw [if_neg hsign.1, if_neg hsign.2]
        exact digitsVal_nondigit c [] 0 h2
    | cons d cs2 =>
      have h2 : (if c = Char.ofNat 45 ∨ c = Char.ofNat 43 then d.isDigit
          else c.isDigit) = false := h
      by_cases hsign : c = Char.ofNat 45 ∨ c = Char.ofNat 43
      · rw [if_pos hsign] at h2
        rcases hsign with h45 | h43
        · rw [if_pos h45, digitsVal_nondigit d cs2 0 h2]; simp
        · rw [if_neg (by rw [h43]; decide), if_pos h43]
          exact digitsVal_nondigit d cs2 0 h2
      · rw [if_neg hsign] at h2
        push_neg at hsign
        rw [if_neg hsign.1, if_neg hsign.2]
        exact digitsVal_nondigit c (d :: cs2) 0 h2

/-! ### C9 -/

/-- Counterexample to claim C9 as stated: `-p 1` together with a command
is accepted and the program proceeds (the usage check is `parent != 1`,
and `atoi("1") == 1` makes it pass), so not every invocation that supplies
both `-p` and a command is a usage error. -/
theorem C9_counterexample :
    parseArgs fokT ["-p", "1", "true"] defaultOpts =
      .ok (setParent defaultOpts ['1']) ["true"] ∧
    (setParent defaultOpts ['1']).pGiven = true ∧
    startup fokT ["-p", "1", "true"] =
      .proceed 1 ["true"] (setParent defaultOpts ['1']) := by
  refine ⟨by decide, by decide, by decide⟩

/-- Claim C9, amended: supplying `-p VALUE` together with a command is a
usage error (usage message, `exit(1)`, no dispatch loop) exactly when
`atoi(VALUE) != 1`; when `atoi(VALUE) == 1` the combination is accepted
and startup proceeds with the command, as if `-p` had not been given. -/
theorem C9_amended (v cmd : String) (cmds : List String) (fok : List Char → Bool)
    (hcmd : cmd.toList.headD (Char.ofNat 32) ≠ Char.ofNat 45) :
    startup fok ("-p" :: v :: cmd :: cmds) =
      if atoi v.toList ≠ 1 then .usageExit
      else .proceed 1 (cmd :: cmds) (setParent defaultOpts v.toList) := by
  unfold startup
  rw [parseArgs_dash_p, parseArgs_operand fok cmd cmds _ hcmd]
  dsimp only [setParent]
  by_cases ha : atoi v.toList = 1
  · have had : atoi v.data = 1 := ha
    rw [if_neg (by simp [ha, had]), if_neg (by simp [ha, had]), ha]
  · rw [if_pos ⟨ha, by simp⟩, if_pos ha]

/-- Witness for C9's amended theorem: `-p 2` plus a command usage-errors. -/
theorem C9_witness :
    ("true" : String).toList.headD (Char.ofNat 32) ≠ Char.ofNat 45 ∧
    startup fokT ["-p", "2", "true"] = .usageExit := by
  refine ⟨by decide, ?_⟩
  have h := C9_amended "2" "true" [] fokT (by decide)
  rw [if_pos (by decide)] at h
  exact h

/-! ### C10 -/

/-- Claim C10: when the `-p` argument does not begin with a decimal
number, no error is reported at all: `atoi` converts it to 0, startup
proceeds with scope root 0 as if `-p 0` had been given, and the program
then arms its `EVFILT_PROC` subscription for pid 0 (attempting to track
descendants of PID 0). -/
theorem C10_nonnumeric_p (s : String) (fok : List Char → Bool)
    (h : beginsWithDecimal s.toList = false) :
    atoi s.toList = 0 ∧
    startup fok ["-p", s] = .proceed 0 [] (setParent defaultOpts s.toList) ∧
    initialSubscription 0 =
      some ⟨0, EVFILT_PROC, EV_ADD, NOTE_EXEC ||| NOTE_TRACK⟩ := by
  have ha := atoi_eq_zero s.toList h
  refine ⟨ha, ?_, by decide⟩
  unfold startup
  rw [parseArgs_dash_p, parseArgs_nil]
  dsimp only [setParent]
  rw [ha]
  simp

/-- Witness for C10: `-p foo` proceeds with scope root 0. -/
theorem C10_witness :
    beginsWithDecimal ("foo" : String).toList = false ∧
    (atoi ("foo" : String).toList = 0 ∧
     startup fokT ["-p", "foo"] = .proceed 0 [] (setParent defaultOpts "foo".toList) ∧
     initialSubscription 0 =
       some ⟨0, EVFILT_PROC, EV_ADD, NOTE_EXEC ||| NOTE_TRACK⟩) :=
  ⟨by decide, C10_nonnumeric_p "foo" fokT (by decide)⟩

end Extrace

